import Mathlib

/-
Verification of the Dicta voice pipeline core.

Shallow embedding of:
  - src/app/audio/vad.py          (VADManager: hysteresis voice-activity detection)
  - src/app/speech_manager/speech_manager.py
        (SpeechThread: rolling pre-buffer / active buffer / post buffer state machine,
         TypingThread: two-lane output queue,
         SpeechManager: config updates and sentence-space handling)

Audio samples are modelled as rationals (the Python code uses float32 samples in
[-1, 1]; all comparisons relevant to the claims are exact).  The external speech
classifier (an ONNX model with recurrent state) is modelled as an arbitrary
function parameter that may fail, and the transcriber as an arbitrary function
parameter returning either text or an error.
-/

namespace Dicta

/-! ## Voice activity detection (src/app/audio/vad.py, class VADManager) -/

/-- The two VAD signals: `speech_started` and `speech_ended` (vad.py lines 25-26). -/
inductive VadEvent where
  | started
  | ended
deriving Repr, DecidableEq

/-- The mutable attributes of `VADManager` that `process_frame` reads and writes.
`σ` is the type of the opaque recurrent classifier state (`self.state`).
`threshold`, `silence_threshold`, `speech_threshold`, `samples_per_frame` are the
configuration attributes; `silence_counter`, `speech_counter`, `is_speaking`,
`frame_buffer` are reset by `reset_state` (vad.py lines 106-114). -/
structure VadState (σ : Type) where
  threshold : ℚ
  silence_threshold : ℕ
  speech_threshold : ℕ
  silence_counter : ℕ
  speech_counter : ℕ
  is_speaking : Bool
  samples_per_frame : ℕ
  frame_buffer : List ℚ
  cstate : σ
deriving Repr, DecidableEq

/-- vad.py line 165: `is_speech = speech_prob >= self.threshold` (boundary inclusive). -/
def isSpeechClass (threshold prob : ℚ) : Bool :=
  decide (threshold ≤ prob)

/-- The speech-detection update of `process_frame` (vad.py lines 164-186): on a
speech-classified frame increment `speech_counter` and zero `silence_counter`,
emitting `started` when not speaking and the counter reaches `speech_threshold`;
on a silence-classified frame increment `silence_counter` and zero
`speech_counter`, emitting `ended` when speaking and the counter reaches
`silence_threshold`. -/
def detectUpdate {σ : Type} (s : VadState σ) (is_speech : Bool) :
    VadState σ × Option VadEvent :=
  if is_speech then
    let s := { s with speech_counter := s.speech_counter + 1, silence_counter := 0 }
    if s.is_speaking = false ∧ s.speech_threshold ≤ s.speech_counter then
      ({ s with is_speaking := true }, some VadEvent.started)
    else
      (s, none)
  else
    let s := { s with silence_counter := s.silence_counter + 1, speech_counter := 0 }
    if s.is_speaking = true ∧ s.silence_threshold ≤ s.silence_counter then
      ({ s with is_speaking := false }, some VadEvent.ended)
    else
      (s, none)

/-- `np.abs(frame_data).max()` over a sample list (0 for an empty frame). -/
def maxAbs (l : List ℚ) : ℚ :=
  l.foldr (fun x m => max |x| m) 0

/-- vad.py lines 139-140: normalize the extracted frame to [-1, 1] when its peak
absolute value exceeds 1. -/
def normalize_frame (l : List ℚ) : List ℚ :=
  if 1 < maxAbs l then l.map (fun x => x / maxAbs l) else l

/-- `VADManager.process_frame` (vad.py lines 116-194).  The incoming samples are
appended to `frame_buffer`; if at least `samples_per_frame` samples are
available, one full frame is extracted, normalized and classified, and the
detection state updated, returning the emitted signal (if any) and the boolean
result `self.is_speaking`.  A shorter accumulation returns `False` untouched.
`classify` models the ONNX inference (vad.py lines 143-152): it consumes the
frame and the recurrent state and returns the probability and new state, or
`none` when inference raises; the surrounding `try/except` (lines 125, 192-194)
then logs and returns `False` — at that point the extracted frame has already
been consumed from `frame_buffer` (lines 135-136) but no counter was updated. -/
def process_frame {σ : Type} (classify : List ℚ → σ → Option (ℚ × σ))
    (s : VadState σ) (frame : List ℚ) : VadState σ × Option VadEvent × Bool :=
  let fb := s.frame_buffer ++ frame
  if s.samples_per_frame ≤ fb.length then
    let frame_data := normalize_frame (fb.take s.samples_per_frame)
    let s1 := { s with frame_buffer := fb.drop s.samples_per_frame }
    match classify frame_data s.cstate with
    | none => (s1, none, false)
    | some (prob, c2) =>
      let s2 := { s1 with cstate := c2 }
      let r := detectUpdate s2 (isSpeechClass s2.threshold prob)
      (r.1, r.2, r.1.is_speaking)
  else
    ({ s with frame_buffer := fb }, none, false)

/-- Iterate the detection update over a sequence of per-frame classifications. -/
def runDetect {σ : Type} (s : VadState σ) (cs : List Bool) : VadState σ :=
  cs.foldl (fun s c => (detectUpdate s c).1) s

/-- Length of the maximal all-`b` suffix of a classification sequence. -/
def trailingCount (b : Bool) (cs : List Bool) : ℕ :=
  (cs.reverse.takeWhile (fun c => c == b)).length

/-! ### Hysteresis-counter lemmas -/

lemma detectUpdate_speech_counter {σ : Type} (s : VadState σ) (c : Bool) :
    ((detectUpdate s c).1).speech_counter = if c then s.speech_counter + 1 else 0 := by
  unfold detectUpdate
  cases c <;> simp <;> split <;> simp

lemma detectUpdate_silence_counter {σ : Type} (s : VadState σ) (c : Bool) :
    ((detectUpdate s c).1).silence_counter = if c then 0 else s.silence_counter + 1 := by
  unfold detectUpdate
  cases c <;> simp <;> split <;> simp

lemma detectUpdate_speech_threshold {σ : Type} (s : VadState σ) (c : Bool) :
    ((detectUpdate s c).1).speech_threshold = s.speech_threshold := by
  unfold detectUpdate
  cases c <;> simp <;> split <;> simp

lemma detectUpdate_silence_threshold {σ : Type} (s : VadState σ) (c : Bool) :
    ((detectUpdate s c).1).silence_threshold = s.silence_threshold := by
  unfold detectUpdate
  cases c <;> simp <;> split <;> simp

lemma runDetect_concat {σ : Type} (s : VadState σ) (cs : List Bool) (c : Bool) :
    runDetect s (cs ++ [c]) = (detectUpdate (runDetect s cs) c).1 := by
  simp [runDetect, List.foldl_append]

lemma trailingCount_concat (b : Bool) (cs : List Bool) (c : Bool) :
    trailingCount b (cs ++ [c]) =
      if c = b then trailingCount b cs + 1 else 0 := by
  cases b <;> cases c <;>
    simp [trailingCount, List.reverse_append, List.takeWhile]

/-- After running a classification sequence from counters at zero, the speech
counter equals the length of the trailing all-speech run and the silence
counter the length of the trailing all-silence run. -/
lemma runDetect_counters {σ : Type} (s : VadState σ) (cs : List Bool)
    (hsp : s.speech_counter = 0) (hsi : s.silence_counter = 0) :
    (runDetect s cs).speech_counter = trailingCount true cs ∧
      (runDetect s cs).silence_counter = trailingCount false cs := by
  induction cs using List.reverseRecOn with
  | nil => simp [runDetect, trailingCount, hsp, hsi]
  | append_singleton cs c ih =>
    rcases ih with ⟨ih1, ih2⟩
    rw [runDetect_concat, trailingCount_concat, trailingCount_concat,
      detectUpdate_speech_counter, detectUpdate_silence_counter, ih1, ih2]
    cases c <;> simp

lemma runDetect_speech_threshold {σ : Type} (s : VadState σ) (cs : List Bool) :
    (runDetect s cs).speech_threshold = s.speech_threshold := by
  induction cs using List.reverseRecOn with
  | nil => simp [runDetect]
  | append_singleton cs c ih =>
    rw [runDetect_concat, detectUpdate_speech_threshold, ih]

lemma runDetect_silence_threshold {σ : Type} (s : VadState σ) (cs : List Bool) :
    (runDetect s cs).silence_threshold = s.silence_threshold := by
  induction cs using List.reverseRecOn with
  | nil => simp [runDetect]
  | append_singleton cs c ih =>
    rw [runDetect_concat, detectUpdate_silence_threshold, ih]

lemma runDetect_take_succ {σ : Type} (s : VadState σ) (cs : List Bool) (i : ℕ)
    (hi : i < cs.length) :
    runDetect s (cs.take (i + 1)) =
      (detectUpdate (runDetect s (cs.take i)) (cs.get ⟨i, hi⟩)).1 := by
  have h1 : cs.take (i + 1) = cs.take i ++ [cs.get ⟨i, hi⟩] := by
    rw [List.take_succ]
    simp [List.getElem?_eq_getElem hi]
  rw [h1, runDetect_concat]

/-- `detectUpdate` emits `started` only from a non-speaking state on a
speech-classified frame with the incremented counter at or above the speech
threshold; dually for `ended`. -/
lemma detectUpdate_started {σ : Type} (s : VadState σ) (c : Bool)
    (h : (detectUpdate s c).2 = some VadEvent.started) :
    s.is_speaking = false ∧ c = true ∧
      s.speech_threshold ≤ ((detectUpdate s c).1).speech_counter := by
  unfold detectUpdate at *
  cases c <;> simp at h ⊢ <;> split at h <;> simp_all

lemma detectUpdate_ended {σ : Type} (s : VadState σ) (c : Bool)
    (h : (detectUpdate s c).2 = some VadEvent.ended) :
    s.is_speaking = true ∧ c = false ∧
      s.silence_threshold ≤ ((detectUpdate s c).1).silence_counter := by
  unfold detectUpdate at *
  cases c <;> simp at h ⊢ <;> split at h <;> simp_all

/-- C1: over any sequence of classified frames processed from a reset hysteresis
state, the VAD emits `started` at a step only when it is not currently speaking,
the step's frame classified as speech, the speech counter has reached
`speech_threshold`, and the last `speech_threshold` frames (at least) all
classified as speech; it emits `ended` only when currently speaking, the step's
frame classified as silence, the silence counter has reached
`silence_threshold`, and the last `silence_threshold` frames all classified as
silence; every speech-classified step zeroes the silence counter and every
silence-classified step zeroes the speech counter; and classification is
boundary inclusive: a probability equal to the threshold classifies as speech. -/
theorem vad_hysteresis_run {σ : Type} (s0 : VadState σ) (cs : List Bool) (i : ℕ)
    (hsp : s0.speech_counter = 0) (hsi : s0.silence_counter = 0)
    (hi : i < cs.length) :
    (((detectUpdate (runDetect s0 (cs.take i)) (cs.get ⟨i, hi⟩)).2 = some VadEvent.started →
        (runDetect s0 (cs.take i)).is_speaking = false ∧
        cs.get ⟨i, hi⟩ = true ∧
        s0.speech_threshold ≤ (runDetect s0 (cs.take (i + 1))).speech_counter ∧
        s0.speech_threshold ≤ trailingCount true (cs.take (i + 1)))) ∧
    (((detectUpdate (runDetect s0 (cs.take i)) (cs.get ⟨i, hi⟩)).2 = some VadEvent.ended →
        (runDetect s0 (cs.take i)).is_speaking = true ∧
        cs.get ⟨i, hi⟩ = false ∧
        s0.silence_threshold ≤ (runDetect s0 (cs.take (i + 1))).silence_counter ∧
        s0.silence_threshold ≤ trailingCount false (cs.take (i + 1)))) ∧
    (cs.get ⟨i, hi⟩ = true →
        (runDetect s0 (cs.take (i + 1))).silence_counter = 0) ∧
    (cs.get ⟨i, hi⟩ = false →
        (runDetect s0 (cs.take (i + 1))).speech_counter = 0) ∧
    (∀ t : ℚ, isSpeechClass t t = true) := by
  have hcnt := runDetect_counters s0 (cs.take (i + 1)) hsp hsi
  have hstep := runDetect_take_succ s0 cs i hi
  refine ⟨?_, ?_, ?_, ?_, ?_⟩
  · intro h
    obtain ⟨h1, h2, h3⟩ := detectUpdate_started _ _ h
    have hth : s0.speech_threshold = (runDetect s0 (cs.take i)).speech_threshold :=
      (runDetect_speech_threshold s0 (cs.take i)).symm
    refine ⟨h1, h2, ?_, ?_⟩
    · rw [hstep, hth]
      exact h3
    · rw [← hcnt.1, hstep, hth]
      exact h3
  · intro h
    obtain ⟨h1, h2, h3⟩ := detectUpdate_ended _ _ h
    have hth : s0.silence_threshold = (runDetect s0 (cs.take i)).silence_threshold :=
      (runDetect_silence_threshold s0 (cs.take i)).symm
    refine ⟨h1, h2, ?_, ?_⟩
    · rw [hstep, hth]
      exact h3
    · rw [← hcnt.2, hstep, hth]
      exact h3
  · intro h
    rw [hstep, detectUpdate_silence_counter, h]
    simp
  · intro h
    rw [hstep, detectUpdate_speech_counter, h]
    simp
  · intro t
    simp [isSpeechClass]

/-- Concrete instantiation of `vad_hysteresis_run`: with `speech_threshold = 2`,
feeding the classifications `[true, true]` makes step 1 emit `started`, so the
theorem yields the not-speaking precondition and the two-frame trailing speech
run. -/
theorem vad_hysteresis_run_witness :
    (({ threshold := 1/2, silence_threshold := 3, speech_threshold := 2,
        silence_counter := 0, speech_counter := 0, is_speaking := false,
        samples_per_frame := 512, frame_buffer := [], cstate := () } :
          VadState Unit).speech_threshold ≤ trailingCount true [true, true]) := by
  have h := vad_hysteresis_run
    ({ threshold := 1/2, silence_threshold := 3, speech_threshold := 2,
       silence_counter := 0, speech_counter := 0, is_speaking := false,
       samples_per_frame := 512, frame_buffer := [], cstate := () } : VadState Unit)
    [true, true] 1 rfl rfl (by decide)
  exact (h.1 (by decide)).2.2.2

/-- C7: a `process_frame` call whose accumulated samples stay below
`samples_per_frame` performs no classification: the result is the same for
every classifier, the hysteresis counters and the speaking flag are unchanged,
the partial samples are appended to the internal `frame_buffer`, and the call
returns `False`.  Once a later call accumulates at least `samples_per_frame`
samples, the first `samples_per_frame` of them (normalized) are handed to the
classifier and the detection state is updated from its verdict. -/
theorem vad_short_frame_buffered {σ : Type}
    (classify₁ classify₂ : List ℚ → σ → Option (ℚ × σ))
    (s : VadState σ) (frame : List ℚ)
    (hshort : (s.frame_buffer ++ frame).length < s.samples_per_frame) :
    process_frame classify₁ s frame =
        ({ s with frame_buffer := s.frame_buffer ++ frame }, none, false) ∧
    process_frame classify₁ s frame = process_frame classify₂ s frame ∧
    ∀ (frame₂ : List ℚ) (g : List ℚ → ℚ),
      s.samples_per_frame ≤ (s.frame_buffer ++ frame₂).length →
      process_frame (fun f c => some (g f, c)) s frame₂ =
        ((detectUpdate
            { s with frame_buffer := (s.frame_buffer ++ frame₂).drop s.samples_per_frame }
            (isSpeechClass s.threshold
              (g (normalize_frame ((s.frame_buffer ++ frame₂).take s.samples_per_frame))))).1,
         (detectUpdate
            { s with frame_buffer := (s.frame_buffer ++ frame₂).drop s.samples_per_frame }
            (isSpeechClass s.threshold
              (g (normalize_frame ((s.frame_buffer ++ frame₂).take s.samples_per_frame))))).2,
         (detectUpdate
            { s with frame_buffer := (s.frame_buffer ++ frame₂).drop s.samples_per_frame }
            (isSpeechClass s.threshold
              (g (normalize_frame ((s.frame_buffer ++ frame₂).take s.samples_per_frame))))).1.is_speaking) := by
  have hno : ¬ s.samples_per_frame ≤ s.frame_buffer.length + frame.length := by
    rw [← List.length_append]
    exact Nat.not_le.mpr hshort
  refine ⟨?_, ?_, ?_⟩
  · simp [process_frame, hno]
  · simp [process_frame, hno]
  · intro frame₂ g hfull
    have hfull' : s.samples_per_frame ≤ s.frame_buffer.length + frame₂.length := by
      rw [← List.length_append]
      exact hfull
    simp [process_frame, hfull']

set_option maxRecDepth 4000 in
/-- Concrete instantiation of `vad_short_frame_buffered`: a 100-sample chunk
against the 256-sample frame requirement is buffered, classified by nothing,
and leaves the hysteresis state untouched. -/
theorem vad_short_frame_buffered_witness :
    process_frame (fun _ _ => some (1, ()))
        ({ threshold := 1/2, silence_threshold := 10, speech_threshold := 3,
           silence_counter := 4, speech_counter := 0, is_speaking := true,
           samples_per_frame := 256, frame_buffer := [], cstate := () } : VadState Unit)
        (List.replicate 100 0) =
      ({ threshold := 1/2, silence_threshold := 10, speech_threshold := 3,
         silence_counter := 4, speech_counter := 0, is_speaking := true,
         samples_per_frame := 256, frame_buffer := List.replicate 100 0, cstate := () },
       none, false) := by
  have h := vad_short_frame_buffered (fun _ _ => some (1, ())) (fun _ _ => none)
    ({ threshold := 1/2, silence_threshold := 10, speech_threshold := 3,
       silence_counter := 4, speech_counter := 0, is_speaking := true,
       samples_per_frame := 256, frame_buffer := [], cstate := () } : VadState Unit)
    (List.replicate 100 0) (by simp)
  simpa using h.1

/-- The `VADManager` state used to exhibit the classifier-error behavior:
currently speaking, `silence_threshold = 1`, counters at zero, an empty
internal buffer, and the 256-samples-per-frame configuration
(`sampling_rate ≠ 16000`, vad.py line 62). -/
def errVadState : VadState Unit :=
  { threshold := 1/2, silence_threshold := 1, speech_threshold := 3,
    silence_counter := 0, speech_counter := 0, is_speaking := true,
    samples_per_frame := 256, frame_buffer := [], cstate := () }

/-- A full frame of zero samples. -/
def zeroFrame256 : List ℚ :=
  List.replicate 256 0

set_option maxRecDepth 8000 in
/-- C4 (divergence evaluation): when the classifier raises on a full frame,
`process_frame` catches the error and returns with the hysteresis state
unchanged — the silence counter is NOT incremented and no `ended` signal is
emitted, even though a genuinely silence-classified frame from the same state
would emit `ended` (second conjunct).  This contradicts the claim that an
errored step is treated as a silence frame. -/
theorem vad_classifier_error_eval :
    process_frame (fun _ _ => none) errVadState zeroFrame256 =
        (errVadState, none, false) ∧
    process_frame (fun _ _ => some (0, ())) errVadState zeroFrame256 =
        ({ errVadState with silence_counter := 1, is_speaking := false },
         some VadEvent.ended, false) := by
  constructor
  · simp [process_frame, errVadState, zeroFrame256]
  · simp [process_frame, errVadState, zeroFrame256, detectUpdate, isSpeechClass]
    norm_num

/-! ## Segment buffering (src/app/speech_manager/speech_manager.py, class SpeechThread)

`SpeechThread` reacts to the two VAD signals and to incoming audio chunks
(`on_audio_data`).  On a chunk, the VAD is fed first (line 306) and its signal
handlers (`on_speech_started` / `on_speech_ended`, connected at lines 104-105)
run before the buffer management of lines 312-323; the model therefore applies
the chunk's emitted events to the state before routing the chunk's samples.
Sample values are opaque to all of this code, so the sample type `α` is a
parameter (the Python arrays hold float32 samples). -/

/-- The buffer-relevant attributes of `SpeechThread` (lines 108-122).
`rollingCap` is the `maxlen` with which `self.rolling_buffer` was allocated
(line 116); `rolling` holds its contents oldest-first. -/
structure ThreadState (α : Type) where
  pre_buffer_duration : ℚ
  post_buffer_duration : ℚ
  sample_rate : ℕ
  rollingCap : ℕ
  rolling : List α
  active : List α
  post : List α
  is_speech_active : Bool
  is_post_buffer_active : Bool
deriving Repr, DecidableEq

/-- Python `int()` truncation toward zero on a rational. -/
def pyInt (q : ℚ) : ℤ :=
  if 0 ≤ q then ⌊q⌋ else ⌈q⌉

/-- `int(self.post_buffer_duration * self.sample_rate)` — the post-buffer length
target in samples (lines 322 and 353). -/
def postTarget {α : Type} (s : ThreadState α) : ℕ :=
  (pyInt (s.post_buffer_duration * s.sample_rate)).toNat

/-- The `SpeechThread` buffer state right after `__init__` / `load_settings`
(lines 108-122, 146-151): empty buffers, both flags false, and the rolling
deque allocated with `maxlen = int(pre_buffer_duration * sample_rate)`. -/
def mkThreadState (α : Type) (preDur postDur : ℚ) (rate : ℕ) : ThreadState α :=
  { pre_buffer_duration := preDur, post_buffer_duration := postDur,
    sample_rate := rate,
    rollingCap := (pyInt (preDur * rate)).toNat,
    rolling := [], active := [], post := [],
    is_speech_active := false, is_post_buffer_active := false }

/-- `deque(maxlen=cap).extend`: append the chunk, evicting the oldest samples
once the capacity is exceeded (line 315). -/
def dequeExtend {α : Type} (cap : ℕ) (buf chunk : List α) : List α :=
  (buf ++ chunk).drop ((buf ++ chunk).length - cap)

/-- `SpeechThread.on_speech_started` (lines 328-337): when speech was not
already active, mark it active and append the rolling pre-buffer snapshot to
the active buffer.  Note that the post-buffer flag and contents are left
untouched. -/
def on_speech_started {α : Type} (s : ThreadState α) : ThreadState α :=
  if s.is_speech_active = false then
    { s with is_speech_active := true, active := s.active ++ s.rolling }
  else s

/-- `SpeechThread.on_speech_ended` (lines 339-349): when speech was active,
deactivate it, activate post-buffer collection, and reset the post buffer to
empty (discarding whatever it held). -/
def on_speech_ended {α : Type} (s : ThreadState α) : ThreadState α :=
  if s.is_speech_active = true then
    { s with is_speech_active := false, is_post_buffer_active := true, post := [] }
  else s

/-- Apply one VAD signal to the thread state. -/
def applyEvent {α : Type} (s : ThreadState α) : VadEvent → ThreadState α
  | VadEvent.started => on_speech_started s
  | VadEvent.ended => on_speech_ended s

def applyEvents {α : Type} (s : ThreadState α) (evs : List VadEvent) : ThreadState α :=
  evs.foldl applyEvent s

/-- `SpeechThread.process_post_buffer` (lines 351-380): once the post buffer
holds at least the target number of samples, deactivate the post-buffer flag,
concatenate the active and post buffers into the complete segment, clear both
buffers, and call `self.speech_service.transcribe(complete_audio)`
SYNCHRONOUSLY; an `ok` nonempty text is emitted via `transcription_ready`,
while empty text (line 375) or a raised transcription error (lines 376-378)
emits nothing.  The middle component of the result is the finalized segment
(if any), the last the emitted text (if any). -/
def process_post_buffer {α : Type} (transcribe : List α → Except Unit String)
    (s : ThreadState α) : ThreadState α × Option (List α) × Option String :=
  if postTarget s ≤ s.post.length then
    let complete := s.active ++ s.post
    let s1 := { s with is_post_buffer_active := false, active := [], post := [] }
    match transcribe complete with
    | Except.ok text => (s1, some complete, if text = "" then none else some text)
    | Except.error _ => (s1, some complete, none)
  else
    (s, none, none)

/-- `SpeechThread.on_audio_data` (lines 271-326), restricted to the buffer
management: the chunk's VAD signals are applied first, then the samples are
routed — to the rolling pre-buffer when neither flag is set, to the active
buffer while speech is active (this branch wins over the post-buffer branch),
and otherwise to the post buffer, finalizing via `process_post_buffer` when the
post buffer reaches its target (lines 322-323). -/
def on_audio_data {α : Type} (transcribe : List α → Except Unit String)
    (s : ThreadState α) (chunk : List α) (evs : List VadEvent) :
    ThreadState α × Option (List α) × Option String :=
  let s := applyEvents s evs
  if s.is_speech_active = false ∧ s.is_post_buffer_active = false then
    ({ s with rolling := dequeExtend s.rollingCap s.rolling chunk }, none, none)
  else if s.is_speech_active = true then
    ({ s with active := s.active ++ chunk }, none, none)
  else
    let s1 := { s with post := s.post ++ chunk }
    if postTarget s1 ≤ s1.post.length then process_post_buffer transcribe s1
    else (s1, none, none)

/-- Run a sequence of audio chunks (each with the VAD signals it triggers)
through `on_audio_data`, collecting every finalized segment and emitted text. -/
def runThread {α : Type} (transcribe : List α → Except Unit String) :
    ThreadState α → List (List α × List VadEvent) →
      ThreadState α × List (List α) × List String
  | s, [] => (s, [], [])
  | s, (c, evs) :: rest =>
    match on_audio_data transcribe s c evs with
    | (s1, seg, out) =>
      match runThread transcribe s1 rest with
      | (sf, segs, outs) => (sf, seg.toList ++ segs, out.toList ++ outs)

/-! ### Rolling-buffer algebra -/

lemma dequeExtend_nil_append {α : Type} (cap : ℕ) (l : List α) :
    dequeExtend cap [] l = l.drop (l.length - cap) := by
  simp [dequeExtend]

lemma dequeExtend_length {α : Type} (cap : ℕ) (a b : List α) :
    (dequeExtend cap a b).length = min cap (a ++ b).length := by
  simp [dequeExtend]
  omega

lemma dequeExtend_left {α : Type} (cap : ℕ) (a b x : List α) :
    dequeExtend cap (dequeExtend cap a b) x = dequeExtend cap (a ++ b) x := by
  unfold dequeExtend
  have hd : (a ++ b).length - cap ≤ (a ++ b).length := Nat.sub_le _ _
  rw [← List.drop_append_of_le_length hd]
  rw [List.drop_drop]
  congr 1
  simp
  omega

/-- Repeatedly extending the rolling deque with chunks keeps the most recent
`cap` samples of everything fed to it. -/
lemma foldl_dequeExtend {α : Type} (cap : ℕ) (chunks : List (List α)) (r : List α)
    (hr : r.length ≤ cap) :
    chunks.foldl (dequeExtend cap) r = dequeExtend cap r chunks.flatten := by
  induction chunks generalizing r with
  | nil =>
    simp [dequeExtend, Nat.sub_eq_zero_of_le hr]
  | cons c rest ih =>
    have hlen : (dequeExtend cap r c).length ≤ cap := by
      rw [dequeExtend_length]
      omega
    calc (c :: rest).foldl (dequeExtend cap) r
        = rest.foldl (dequeExtend cap) (dequeExtend cap r c) := by simp
      _ = dequeExtend cap (dequeExtend cap r c) rest.flatten := ih _ hlen
      _ = dequeExtend cap (r ++ c) rest.flatten := dequeExtend_left ..
      _ = dequeExtend cap r (c :: rest).flatten := by simp [dequeExtend]

/-! ### Run decomposition and phase lemmas -/

lemma runThread_append {α : Type} (t : List α → Except Unit String)
    (s : ThreadState α) (l1 l2 : List (List α × List VadEvent)) :
    runThread t s (l1 ++ l2) =
      ((runThread t (runThread t s l1).1 l2).1,
       (runThread t s l1).2.1 ++ (runThread t (runThread t s l1).1 l2).2.1,
       (runThread t s l1).2.2 ++ (runThread t (runThread t s l1).1 l2).2.2) := by
  induction l1 generalizing s with
  | nil => simp [runThread]
  | cons p rest ih =>
    obtain ⟨c, evs⟩ := p
    simp only [List.cons_append, runThread, List.append_eq]
    rw [ih]
    simp [runThread]

/-- `postTarget` only reads the duration and rate, which `on_audio_data` never
changes. -/
lemma postTarget_set_post {α : Type} (s : ThreadState α) (l : List α) :
    postTarget { s with post := l } = postTarget s := rfl

/-- Idle phase: with both flags down and no VAD signal, chunks only feed the
rolling pre-buffer. -/
lemma runThread_idle {α : Type} (t : List α → Except Unit String)
    (chunks : List (List α)) (s : ThreadState α)
    (h1 : s.is_speech_active = false) (h2 : s.is_post_buffer_active = false) :
    runThread t s (chunks.map (fun c => (c, []))) =
      ({ s with rolling := chunks.foldl (dequeExtend s.rollingCap) s.rolling }, [], []) := by
  induction chunks generalizing s with
  | nil => simp [runThread]
  | cons c rest ih =>
    simp only [List.map_cons, runThread, on_audio_data, applyEvents, List.foldl_nil]
    rw [if_pos (by exact ⟨h1, h2⟩)]
    rw [ih _ (by simp [h1]) (by simp [h2])]
    simp

/-- Speech-active phase: with the speech flag up and no VAD signal, chunks are
appended to the active buffer (regardless of the post-buffer flag). -/
lemma runThread_active {α : Type} (t : List α → Except Unit String)
    (chunks : List (List α)) (s : ThreadState α)
    (h1 : s.is_speech_active = true) :
    runThread t s (chunks.map (fun c => (c, []))) =
      ({ s with active := s.active ++ chunks.flatten }, [], []) := by
  induction chunks generalizing s with
  | nil => simp [runThread]
  | cons c rest ih =>
    simp only [List.map_cons, runThread, on_audio_data, applyEvents, List.foldl_nil]
    rw [if_neg (by simp [h1]), if_pos (by exact h1)]
    rw [ih _ (by simp [h1])]
    simp

/-- Post-buffer phase below target: with only the post flag up and no VAD
signal, chunks accumulate in the post buffer as long as the target length is
not reached. -/
lemma runThread_post_below {α : Type} (t : List α → Except Unit String)
    (chunks : List (List α)) (s : ThreadState α)
    (h1 : s.is_speech_active = false) (h2 : s.is_post_buffer_active = true)
    (hlt : (s.post ++ chunks.flatten).length < postTarget s) :
    runThread t s (chunks.map (fun c => (c, []))) =
      ({ s with post := s.post ++ chunks.flatten }, [], []) := by
  induction chunks generalizing s with
  | nil => simp [runThread]
  | cons c rest ih =>
    simp only [List.map_cons, runThread, on_audio_data, applyEvents, List.foldl_nil]
    rw [if_neg (by simp [h1, h2]), if_neg (by simp [h1])]
    rw [if_neg (by
      rw [postTarget_set_post]
      show ¬ postTarget s ≤ (s.post ++ c).length
      simp only [List.flatten_cons, ← List.append_assoc] at hlt
      intro hcon
      have : (s.post ++ c).length ≤ (s.post ++ c ++ rest.flatten).length := by simp
      omega)]
    rw [ih _ (by simp [h1]) (by simp [h2]) (by
      rw [postTarget_set_post]
      simp only [List.flatten_cons, ← List.append_assoc] at hlt
      simpa using hlt)]
    simp

lemma runThread_single {α : Type} (t : List α → Except Unit String)
    (s : ThreadState α) (c : List α) (evs : List VadEvent) :
    runThread t s [(c, evs)] =
      ((on_audio_data t s c evs).1,
       (on_audio_data t s c evs).2.1.toList,
       (on_audio_data t s c evs).2.2.toList) := by
  simp only [runThread]
  rcases on_audio_data t s c evs with ⟨s1, seg, out⟩
  simp [runThread]

/-- The chunk on which the VAD emitted `started` from idle: the rolling
snapshot is appended to the active buffer, speech becomes active, and the
chunk itself is routed to the active buffer. -/
lemma on_audio_data_start {α : Type} (t : List α → Except Unit String)
    (s : ThreadState α) (c : List α) (h1 : s.is_speech_active = false) :
    on_audio_data t s c [VadEvent.started] =
      ({ s with is_speech_active := true, active := (s.active ++ s.rolling) ++ c },
       none, none) := by
  simp only [on_audio_data, applyEvents, List.foldl_cons, List.foldl_nil, applyEvent,
    on_speech_started]
  rw [if_pos h1]
  rw [if_neg (by simp), if_pos (by simp)]

/-- The chunk on which the VAD emitted `ended` during speech: speech
deactivates, the post buffer restarts empty and receives the chunk, and (as
long as the chunk alone does not reach the post target) nothing finalizes. -/
lemma on_audio_data_end {α : Type} (t : List α → Except Unit String)
    (s : ThreadState α) (c : List α) (h1 : s.is_speech_active = true)
    (hlt : c.length < postTarget s) :
    on_audio_data t s c [VadEvent.ended] =
      ({ s with is_speech_active := false, is_post_buffer_active := true, post := c },
       none, none) := by
  simp only [on_audio_data, applyEvents, List.foldl_cons, List.foldl_nil, applyEvent,
    on_speech_ended]
  rw [if_pos h1]
  rw [if_neg (by simp), if_neg (by simp)]
  rw [if_neg (by
    show ¬ postTarget s ≤ ([] ++ c : List α).length
    simpa using Nat.not_le.mpr hlt)]
  simp

/-- The finalizing chunk: with only the post flag up, a chunk that brings the
post buffer to (at least) its target length triggers `process_post_buffer`,
which emits the segment `active ++ post ++ chunk` and clears the buffers. -/
lemma on_audio_data_finalize {α : Type} (t : List α → Except Unit String)
    (s : ThreadState α) (c : List α)
    (h1 : s.is_speech_active = false) (h2 : s.is_post_buffer_active = true)
    (hge : postTarget s ≤ (s.post ++ c).length) :
    on_audio_data t s c [] =
      ({ s with is_post_buffer_active := false, active := [], post := [] },
       some (s.active ++ (s.post ++ c)),
       match t (s.active ++ (s.post ++ c)) with
       | Except.ok text => if text = "" then none else some text
       | Except.error _ => none) := by
  simp only [on_audio_data, applyEvents, List.foldl_nil]
  rw [if_neg (by simp [h1, h2]), if_neg (by simp [h1])]
  rw [if_pos (by rw [postTarget_set_post]; exact hge)]
  simp only [process_post_buffer]
  rw [if_pos (by rw [postTarget_set_post]; exact hge)]
  cases t (s.active ++ (s.post ++ c)) <;> simp

/-- C2 (amended to single utterances, the case with no `started` signal during
the post-buffer window): starting from any idle state with empty buffers, a run
consisting of pre-roll chunks `P`, a chunk `a` on which the VAD signals
`started`, further speech chunks `A`, a chunk `b` on which the VAD signals
`ended`, and post chunks `Bmid ++ [blast]` whose cumulative length first
reaches the post target at `blast`, finalizes exactly one Segment; that Segment
is the rolling pre-buffer snapshot taken at the Idle→SpeechActive transition
(the last `rollingCap` samples of `P`), followed by the active-speech samples,
followed by the post-buffer samples — equivalently, a contiguous suffix window
of the full chronological input stream (no reordering, duplication or gaps) —
and its length is `pre_buffer_samples_at_start + active_samples +
post_buffer_samples`. -/
theorem single_utterance_segment {α : Type} (t : List α → Except Unit String)
    (s0 : ThreadState α) (P A Bmid : List (List α)) (a b blast : List α)
    (h1 : s0.is_speech_active = false) (h2 : s0.is_post_buffer_active = false)
    (hroll : s0.rolling = []) (hact : s0.active = []) (_hpost : s0.post = [])
    (hbelow : (b ++ Bmid.flatten).length < postTarget s0)
    (hcross : postTarget s0 ≤ ((b ++ Bmid.flatten) ++ blast).length) :
    (runThread t s0
        (P.map (fun c => (c, ([] : List VadEvent))) ++
          ([(a, [VadEvent.started])] ++
            (A.map (fun c => (c, ([] : List VadEvent))) ++
              ([(b, [VadEvent.ended])] ++
                (Bmid.map (fun c => (c, ([] : List VadEvent))) ++ [(blast, [])])))))).2.1
      = [((dequeExtend s0.rollingCap [] P.flatten ++ a) ++ A.flatten) ++
          ((b ++ Bmid.flatten) ++ blast)] ∧
    ((dequeExtend s0.rollingCap [] P.flatten ++ a) ++ A.flatten) ++
        ((b ++ Bmid.flatten) ++ blast)
      = (P.flatten ++ (a ++ (A.flatten ++ (b ++ (Bmid.flatten ++ blast))))).drop
          (P.flatten.length - s0.rollingCap) ∧
    (((dequeExtend s0.rollingCap [] P.flatten ++ a) ++ A.flatten) ++
        ((b ++ Bmid.flatten) ++ blast)).length
      = min s0.rollingCap P.flatten.length +
          (a ++ A.flatten).length + ((b ++ Bmid.flatten) ++ blast).length := by
  have hb_lt : b.length < postTarget s0 := by
    have : b.length ≤ (b ++ Bmid.flatten).length := by simp
    omega
  -- phase 1: pre-roll
  have hP : runThread t s0 (P.map (fun c => (c, ([] : List VadEvent)))) =
      ({ s0 with rolling := dequeExtend s0.rollingCap [] P.flatten }, [], []) := by
    rw [runThread_idle t P s0 h1 h2, hroll, foldl_dequeExtend _ _ _ (by simp)]
  -- phase 2: the started chunk
  have hstart : on_audio_data t
        { s0 with rolling := dequeExtend s0.rollingCap [] P.flatten } a
        [VadEvent.started] =
      ({ s0 with rolling := dequeExtend s0.rollingCap [] P.flatten,
                 is_speech_active := true,
                 active := dequeExtend s0.rollingCap [] P.flatten ++ a },
       none, none) := by
    rw [on_audio_data_start t _ a (by simpa using h1)]
    simp [hact]
  -- phase 3: the speech chunks
  have hA : runThread t
        ({ s0 with rolling := dequeExtend s0.rollingCap [] P.flatten,
                   is_speech_active := true,
                   active := dequeExtend s0.rollingCap [] P.flatten ++ a })
        (A.map (fun c => (c, ([] : List VadEvent)))) =
      ({ s0 with rolling := dequeExtend s0.rollingCap [] P.flatten,
                 is_speech_active := true,
                 active := (dequeExtend s0.rollingCap [] P.flatten ++ a) ++ A.flatten },
       [], []) := by
    rw [runThread_active t A _ (by simp)]
  -- phase 4: the ended chunk
  have hend : on_audio_data t
        ({ s0 with rolling := dequeExtend s0.rollingCap [] P.flatten,
                   is_speech_active := true,
                   active := (dequeExtend s0.rollingCap [] P.flatten ++ a) ++ A.flatten })
        b [VadEvent.ended] =
      ({ s0 with rolling := dequeExtend s0.rollingCap [] P.flatten,
                 is_speech_active := false, is_post_buffer_active := true,
                 active := (dequeExtend s0.rollingCap [] P.flatten ++ a) ++ A.flatten,
                 post := b },
       none, none) := by
    rw [on_audio_data_end t _ b (by simp) (by simpa [postTarget] using hb_lt)]
  -- phase 5: the post chunks below target
  have hB : runThread t
        ({ s0 with rolling := dequeExtend s0.rollingCap [] P.flatten,
                   is_speech_active := false, is_post_buffer_active := true,
                   active := (dequeExtend s0.rollingCap [] P.flatten ++ a) ++ A.flatten,
                   post := b })
        (Bmid.map (fun c => (c, ([] : List VadEvent)))) =
      ({ s0 with rolling := dequeExtend s0.rollingCap [] P.flatten,
                 is_speech_active := false, is_post_buffer_active := true,
                 active := (dequeExtend s0.rollingCap [] P.flatten ++ a) ++ A.flatten,
                 post := b ++ Bmid.flatten },
       [], []) := by
    rw [runThread_post_below t Bmid _ (by simp) (by simp)
      (by simpa [postTarget] using hbelow)]
  -- phase 6: the finalizing chunk
  have hfin : on_audio_data t
        ({ s0 with rolling := dequeExtend s0.rollingCap [] P.flatten,
                   is_speech_active := false, is_post_buffer_active := true,
                   active := (dequeExtend s0.rollingCap [] P.flatten ++ a) ++ A.flatten,
                   post := b ++ Bmid.flatten })
        blast [] =
      ({ s0 with rolling := dequeExtend s0.rollingCap [] P.flatten,
                 is_speech_active := false, is_post_buffer_active := false,
                 active := [], post := [] },
       some (((dequeExtend s0.rollingCap [] P.flatten ++ a) ++ A.flatten) ++
         ((b ++ Bmid.flatten) ++ blast)),
       match t (((dequeExtend s0.rollingCap [] P.flatten ++ a) ++ A.flatten) ++
         ((b ++ Bmid.flatten) ++ blast)) with
       | Except.ok text => if text = "" then none else some text
       | Except.error _ => none) := by
    rw [on_audio_data_finalize t _ blast (by simp) (by simp)
      (by simpa [postTarget] using hcross)]
  refine ⟨?_, ?_, ?_⟩
  · rw [runThread_append, hP]
    simp only [runThread_append, runThread_single]
    rw [hstart]
    simp only []
    rw [hA]
    simp only []
    rw [hend]
    simp only []
    rw [hB]
    simp only []
    rw [hfin]
    simp
  · rw [dequeExtend_nil_append]
    have hle : P.flatten.length - s0.rollingCap ≤ P.flatten.length := Nat.sub_le _ _
    rw [List.drop_append_of_le_length hle]
    simp
  · simp [dequeExtend_length]
    omega

lemma postTarget_mk231 : postTarget (mkThreadState ℕ 2 2 1) = 2 := by
  simp [postTarget, mkThreadState, pyInt]

lemma rollingCap_mk231 : (mkThreadState ℕ 2 2 1).rollingCap = 2 := by
  simp [mkThreadState, pyInt]

/-- Concrete instantiation of `single_utterance_segment`: pre-roll `[1,2,3]`
with a 2-sample rolling capacity, speech `[4]`, end chunk `[5]`, finalizing
chunk `[6]` with a 2-sample post target — the single finalized segment is
`[2,3,4,5,6]`. -/
theorem single_utterance_segment_witness :
    (runThread (fun _ => Except.error ()) (mkThreadState ℕ 2 2 1)
        ([[1, 2, 3]].map (fun c => (c, ([] : List VadEvent))) ++
          ([([4], [VadEvent.started])] ++
            (([] : List (List ℕ)).map (fun c => (c, ([] : List VadEvent))) ++
              ([([5], [VadEvent.ended])] ++
                (([] : List (List ℕ)).map (fun c => (c, ([] : List VadEvent))) ++
                  [([6], [])])))))).2.1
      = [[2, 3, 4, 5, 6]] := by
  have h := single_utterance_segment (fun _ => Except.error ())
    (mkThreadState ℕ 2 2 1) [[1, 2, 3]] [] [] [4] [5] [6]
    rfl rfl rfl rfl rfl
    (by simp [postTarget_mk231]) (by simp [postTarget_mk231])
  rw [h.1]
  simp [rollingCap_mk231, dequeExtend]

/-- C2 (counterexample to the unrestricted claim): in a run where the VAD
signals `started` again while the post buffer is filling, the single finalized
Segment is NOT chronological: the input stream `[10,1,2,3,4,5,6]` (one fresh
sample per chunk, all distinct) yields the segment `[10,1,10,3,4,5,6]`, which
repeats the stale pre-buffer sample `10` (duplication) and omits the captured
sample `2` (a gap), because `on_speech_started` re-appends the unrefreshed
rolling buffer and `on_speech_ended` clears the partially filled post buffer. -/
theorem segment_chronology_counterexample :
    ([10, 1, 2, 3, 4, 5, 6] : List ℕ).Nodup ∧
    (runThread (fun _ => Except.error ()) (mkThreadState ℕ 1 3 1)
        [([10], []), ([1], [VadEvent.started]), ([2], [VadEvent.ended]),
         ([3], [VadEvent.started]), ([4], [VadEvent.ended]), ([5], []), ([6], [])]).2.1
      = [[10, 1, 10, 3, 4, 5, 6]] ∧
    ¬ ([10, 1, 10, 3, 4, 5, 6] : List ℕ).Nodup ∧
    (2 : ℕ) ∉ ([10, 1, 10, 3, 4, 5, 6] : List ℕ) := by
  refine ⟨by decide, ?_, by decide, by decide⟩
  simp [runThread, on_audio_data, applyEvents, applyEvent, on_speech_started,
    on_speech_ended, process_post_buffer, dequeExtend, mkThreadState, postTarget, pyInt]

/-- C3 (divergence evaluation): when speech resumes while the post buffer is
filling (a `started` signal in the PostBuffer state), the code does finalize
only one Segment for the whole utterance, but it does NOT re-merge the
post-buffer samples collected so far: `on_speech_ended` later clears them (the
sample `8` below is lost), and `on_speech_started` re-appends the stale rolling
pre-buffer into the active buffer (the sample `20` below is duplicated). -/
theorem postbuffer_reentry_eval :
    (runThread (fun _ => Except.error ()) (mkThreadState ℕ 1 3 1)
        [([20], []), ([7], [VadEvent.started]), ([8], [VadEvent.ended]),
         ([9], [VadEvent.started]), ([11], [VadEvent.ended]), ([12], []), ([13], [])]).2.1
      = [[20, 7, 20, 9, 11, 12, 13]] ∧
    (8 : ℕ) ∉ ([20, 7, 20, 9, 11, 12, 13] : List ℕ) ∧
    ¬ ([20, 7, 20, 9, 11, 12, 13] : List ℕ).Nodup := by
  refine ⟨?_, by decide, by decide⟩
  simp [runThread, on_audio_data, applyEvents, applyEvent, on_speech_started,
    on_speech_ended, process_post_buffer, dequeExtend, mkThreadState, postTarget, pyInt]

/-- A `SpeechThread` state in the PostBuffer phase, one sample short of the
post target. -/
def postPhaseState : ThreadState ℕ :=
  { pre_buffer_duration := 0, post_buffer_duration := 1, sample_rate := 1,
    rollingCap := 0, rolling := [], active := [1], post := [],
    is_speech_active := false, is_post_buffer_active := true }

/-- C6 (divergence evaluation): the value returned by the audio-path step
`on_audio_data` on the chunk that completes the post buffer DEPENDS on the
transcriber's output — the very step that finalizes the segment computes
`transcribe` and carries its result (first two conjuncts give different
emissions for different transcribers, and the step results differ).  In the
source this is `process_post_buffer` calling
`self.speech_service.transcribe(complete_audio)` synchronously (lines 369) from
`on_audio_data` (line 323) or the `SpeechThread.run` loop (lines 200-201), so
the segmentation/audio path waits for transcription rather than handing the
segment off. -/
theorem transcribe_called_inline :
    (on_audio_data (fun _ => Except.ok "hello") postPhaseState [2] []).2.2 = some "hello" ∧
    (on_audio_data (fun _ => Except.ok "bye") postPhaseState [2] []).2.2 = some "bye" ∧
    on_audio_data (fun _ => Except.ok "hello") postPhaseState [2] [] ≠
      on_audio_data (fun _ => Except.ok "bye") postPhaseState [2] [] := by
  refine ⟨?_, ?_, ?_⟩ <;>
    simp [on_audio_data, applyEvents, process_post_buffer, postPhaseState,
      postTarget, pyInt]

/-- C10: when the post buffer is complete and the Transcriber returns empty
(falsy) text for the finalized segment, no output item is produced, the active
and post buffers have been cleared, the post-buffer flag dropped — exactly the
same resulting state and (absence of) output as when the Transcriber raises. -/
theorem empty_transcription_no_output {α : Type}
    (t1 t2 : List α → Except Unit String) (s : ThreadState α)
    (hlen : postTarget s ≤ s.post.length)
    (hok : t1 (s.active ++ s.post) = Except.ok "")
    (herr : t2 (s.active ++ s.post) = Except.error ()) :
    process_post_buffer t1 s = process_post_buffer t2 s ∧
    (process_post_buffer t1 s).2.2 = none ∧
    (process_post_buffer t1 s).1.active = [] ∧
    (process_post_buffer t1 s).1.post = [] ∧
    (process_post_buffer t1 s).1.is_post_buffer_active = false ∧
    (process_post_buffer t1 s).2.1 = some (s.active ++ s.post) := by
  simp [process_post_buffer, hlen, hok, herr]

/-- Concrete instantiation of `empty_transcription_no_output`: a completed post
buffer whose transcription returns `""` emits nothing. -/
theorem empty_transcription_no_output_witness :
    (process_post_buffer (fun _ => Except.ok "")
        ({ postPhaseState with post := [2] } : ThreadState ℕ)).2.2 = none := by
  have h := empty_transcription_no_output (fun _ => Except.ok "")
    (fun _ => Except.error ()) ({ postPhaseState with post := [2] } : ThreadState ℕ)
    (by simp [postPhaseState, postTarget, pyInt]) rfl rfl
  exact h.2.1

/-- `VADManager.set_threshold`, `set_silence_threshold`, `set_speech_threshold`
(vad.py lines 247-260), as invoked from `SpeechManager.update_config`
(speech_manager.py lines 496-500): threshold clamped to [0,1], run lengths
clamped to a minimum of 1. -/
def update_vad_settings {σ : Type} (cfgThreshold : ℚ) (cfgSilence cfgSpeech : ℤ)
    (v : VadState σ) : VadState σ :=
  { v with threshold := max 0 (min cfgThreshold 1),
           silence_threshold := (max 1 cfgSilence).toNat,
           speech_threshold := (max 1 cfgSpeech).toNat }

/-- `SpeechManager.update_config`, its effect on the `SpeechThread` buffer
attributes (speech_manager.py lines 502-506): store the new durations and
replace `rolling_buffer` by a NEW EMPTY deque with capacity
`int(vad_pre_buffer * vad_sampling_rate)` — unconditionally, whatever the
current state; the active and post buffers and the state flags are not
touched.  (Note the thread's own `sample_rate` attribute is not updated; the
new capacity is computed from the config's rate.) -/
def update_config {α : Type} (cfgPre cfgPost : ℚ) (cfgRate : ℕ)
    (s : ThreadState α) : ThreadState α :=
  { s with pre_buffer_duration := cfgPre,
           post_buffer_duration := cfgPost,
           rollingCap := (pyInt (cfgPre * cfgRate)).toNat,
           rolling := [] }

/-- C8 (counterexample): applying a pre-buffer duration change while the state
machine is in SpeechActive does NOT leave the rolling pre-buffer contents
unchanged, and the resize is NOT deferred: the rolling deque is immediately
replaced by an empty one with the new capacity. -/
theorem update_config_counterexample :
    (update_config 2 1 1
        ({ pre_buffer_duration := 1, post_buffer_duration := 1, sample_rate := 1,
           rollingCap := 1, rolling := [9], active := [1], post := [],
           is_speech_active := true, is_post_buffer_active := false } :
          ThreadState ℕ)).rolling ≠ [9] ∧
    (update_config 2 1 1
        ({ pre_buffer_duration := 1, post_buffer_duration := 1, sample_rate := 1,
           rollingCap := 1, rolling := [9], active := [1], post := [],
           is_speech_active := true, is_post_buffer_active := false } :
          ThreadState ℕ)).rollingCap = 2 := by
  constructor
  · simp [update_config]
  · simp [update_config, pyInt]

/-- C8 (amended): `update_config` applies the pre-buffer change immediately in
EVERY state — the rolling deque is replaced by a new empty one with the new
capacity (its contents are discarded) regardless of the speech/post flags —
while the in-flight active and post buffers and both state flags are left
unchanged. -/
theorem update_config_behavior {α : Type} (cfgPre cfgPost : ℚ) (cfgRate : ℕ)
    (s : ThreadState α) :
    (update_config cfgPre cfgPost cfgRate s).rolling = [] ∧
    (update_config cfgPre cfgPost cfgRate s).rollingCap
        = (pyInt (cfgPre * cfgRate)).toNat ∧
    (update_config cfgPre cfgPost cfgRate s).active = s.active ∧
    (update_config cfgPre cfgPost cfgRate s).post = s.post ∧
    (update_config cfgPre cfgPost cfgRate s).is_speech_active = s.is_speech_active ∧
    (update_config cfgPre cfgPost cfgRate s).is_post_buffer_active
        = s.is_post_buffer_active ∧
    (update_config cfgPre cfgPost cfgRate s).pre_buffer_duration = cfgPre ∧
    (update_config cfgPre cfgPost cfgRate s).post_buffer_duration = cfgPost := by
  simp [update_config]

/-! ## Output dispatch (speech_manager.py, class TypingThread)

`TypingThread` holds two deques: `word_queue` (drained first) and `text_queue`
(sentences).  The model interleaves the enqueue calls (which may come from
other threads) with iterations of the `run` loop at operation granularity. -/

/-- One operation against the typing thread: `enqueue_word` (lines 40-44),
`enqueue_text` (lines 34-38), or one iteration of the `run` loop's body
(lines 46-65). -/
inductive TypingOp where
  | enqueue_word (w : String)
  | enqueue_text (t : String)
  | run_step
deriving Repr, DecidableEq

/-- An item delivered to the `TextTyper` (the TextSink). -/
inductive Delivery where
  | word (w : String)
  | text (t : String)
deriving Repr, DecidableEq

/-- The two FIFO lanes of `TypingThread` (lines 29-30). -/
structure TypingState where
  text_queue : List String
  word_queue : List String
deriving Repr, DecidableEq

/-- Execute one operation: enqueues append on the right; a `run` iteration
pops the word lane first (lines 50-55) and the text lane only when the word
lane is empty (lines 57-63), delivering the popped item; with both lanes empty
it sleeps (line 65) and delivers nothing. -/
def typingStep (s : TypingState) : TypingOp → TypingState × Option Delivery
  | TypingOp.enqueue_word w => ({ s with word_queue := s.word_queue ++ [w] }, none)
  | TypingOp.enqueue_text t => ({ s with text_queue := s.text_queue ++ [t] }, none)
  | TypingOp.run_step =>
    match s.word_queue with
    | w :: ws => ({ s with word_queue := ws }, some (Delivery.word w))
    | [] =>
      match s.text_queue with
      | t :: ts => ({ s with text_queue := ts }, some (Delivery.text t))
      | [] => (s, none)

/-- Run a sequence of operations, collecting the deliveries in order. -/
def runTyping (s : TypingState) : List TypingOp → TypingState × List Delivery
  | [] => (s, [])
  | op :: rest =>
    match typingStep s op with
    | (s1, d) =>
      match runTyping s1 rest with
      | (sf, ds) => (sf, d.toList ++ ds)

def enqueuedWords (ops : List TypingOp) : List String :=
  ops.filterMap fun op =>
    match op with
    | TypingOp.enqueue_word w => some w
    | _ => none

def enqueuedTexts (ops : List TypingOp) : List String :=
  ops.filterMap fun op =>
    match op with
    | TypingOp.enqueue_text t => some t
    | _ => none

def deliveredWords (ds : List Delivery) : List String :=
  ds.filterMap fun d =>
    match d with
    | Delivery.word w => some w
    | _ => none

def deliveredTexts (ds : List Delivery) : List String :=
  ds.filterMap fun d =>
    match d with
    | Delivery.text t => some t
    | _ => none

/-- C5: a sentence-lane (text) item is delivered only at a step where the word
lane is empty; and over every operation sequence, each lane is FIFO with
exactly-once delivery — the deliveries from a lane followed by the lane's
remaining queue equal the lane's initial queue followed by its enqueues, in
submission order. -/
theorem typing_lane_order :
    (∀ (s s' : TypingState) (txt : String),
        typingStep s TypingOp.run_step = (s', some (Delivery.text txt)) →
          s.word_queue = []) ∧
    (∀ (s : TypingState) (ops : List TypingOp),
        deliveredWords (runTyping s ops).2 ++ (runTyping s ops).1.word_queue
            = s.word_queue ++ enqueuedWords ops ∧
        deliveredTexts (runTyping s ops).2 ++ (runTyping s ops).1.text_queue
            = s.text_queue ++ enqueuedTexts ops) := by
  constructor
  · intro s s' txt h
    rcases hw : s.word_queue with _ | ⟨w, ws⟩
    · rfl
    · rw [typingStep, hw] at h
      simp at h
  · intro s ops
    induction ops generalizing s with
    | nil => simp [runTyping, deliveredWords, deliveredTexts, enqueuedWords, enqueuedTexts]
    | cons op rest ih =>
      cases op with
      | enqueue_word w =>
        have := ih { s with word_queue := s.word_queue ++ [w] }
        simp only [runTyping, typingStep] at *
        simp_all [deliveredWords, deliveredTexts, enqueuedWords, enqueuedTexts]
      | enqueue_text t =>
        have := ih { s with text_queue := s.text_queue ++ [t] }
        simp only [runTyping, typingStep] at *
        simp_all [deliveredWords, deliveredTexts, enqueuedWords, enqueuedTexts]
      | run_step =>
        rcases hw : s.word_queue with _ | ⟨w, ws⟩
        · rcases ht : s.text_queue with _ | ⟨t, ts⟩
          · have := ih s
            simp only [runTyping, typingStep, hw, ht] at *
            simp_all [deliveredWords, deliveredTexts, enqueuedWords, enqueuedTexts, hw, ht]
          · have := ih { s with text_queue := ts }
            simp only [runTyping, typingStep, hw, ht] at *
            simp_all [deliveredWords, deliveredTexts, enqueuedWords, enqueuedTexts, hw, ht]
        · have := ih { s with word_queue := ws }
          simp only [runTyping, typingStep, hw] at *
          simp_all [deliveredWords, deliveredTexts, enqueuedWords, enqueuedTexts, hw]

/-- Concrete instantiation of `typing_lane_order`: the step that delivers the
sentence "hi" has an empty word lane, and a run over a mixed enqueue/run
sequence delivers the word lane exactly in submission order. -/
theorem typing_lane_order_witness :
    ({ text_queue := ["hi"], word_queue := [] } : TypingState).word_queue = [] ∧
    deliveredWords (runTyping { text_queue := [], word_queue := [] }
        [TypingOp.enqueue_word "a", TypingOp.enqueue_text "b",
         TypingOp.run_step, TypingOp.run_step]).2 ++
      (runTyping { text_queue := [], word_queue := [] }
        [TypingOp.enqueue_word "a", TypingOp.enqueue_text "b",
         TypingOp.run_step, TypingOp.run_step]).1.word_queue
      = ["a"] := by
  constructor
  · exact typing_lane_order.1 { text_queue := ["hi"], word_queue := [] }
      { text_queue := [], word_queue := [] } "hi" rfl
  · have h := (typing_lane_order.2 { text_queue := [], word_queue := [] }
      [TypingOp.enqueue_word "a", TypingOp.enqueue_text "b",
       TypingOp.run_step, TypingOp.run_step]).1
    simpa [enqueuedWords] using h

/-! ## Sentence-space handling (speech_manager.py, class SpeechManager) -/

/-- Python `text.endswith(' ')`. -/
def endsWithSpace (s : String) : Bool :=
  decide (s.data.getLast? = some ' ')

/-- Lines 452-454: `if text and not text.endswith(' '): text += ' '`. -/
def append_sentence_space (t : String) : String :=
  if t ≠ "" ∧ endsWithSpace t = false then t ++ " " else t

/-- `SpeechManager.on_transcription_ready` (lines 433-459): when AI correction
is enabled, the Ollama correction replaces the text only if it is truthy and
differs from the original (lines 439-450; a raised correction error keeps the
original, modelled by `correct` returning `none`); then a trailing space is
appended when the text is nonempty and lacks one; the result is emitted and
enqueued to the typing thread's text lane (lines 458-459). -/
def on_transcription_ready (correctionEnabled : Bool)
    (correct : String → Option String) (text : String) : String :=
  append_sentence_space
    (if correctionEnabled then
      match correct text with
      | some c => if c ≠ "" ∧ c ≠ text then c else text
      | none => text
    else text)

lemma append_sentence_space_ends (t : String)
    (h : append_sentence_space t ≠ "") :
    endsWithSpace (append_sentence_space t) = true := by
  by_cases hc : t ≠ "" ∧ endsWithSpace t = false
  · rw [append_sentence_space, if_pos hc]
    have hdata : (t ++ " ").data = t.data ++ [' '] := by
      simp [String.data_append]
    simp [endsWithSpace, hdata, List.getLast?_concat]
  · rw [append_sentence_space, if_neg hc] at h ⊢
    rcases Decidable.not_and_iff_or_not.mp hc with h1 | h2
    · exact absurd (Decidable.not_not.mp h1) h
    · simpa using h2

/-- C9: every non-empty text produced by `on_transcription_ready` — the exact
string emitted and enqueued toward the typing thread — ends with a space. -/
theorem sentence_text_ends_with_space (correctionEnabled : Bool)
    (correct : String → Option String) (text : String)
    (hne : on_transcription_ready correctionEnabled correct text ≠ "") :
    endsWithSpace (on_transcription_ready correctionEnabled correct text) = true :=
  append_sentence_space_ends _ hne

/-- Concrete instantiation of `sentence_text_ends_with_space`: transcribed
"ok" (no correction) is forwarded as "ok " which ends with a space. -/
theorem sentence_text_ends_with_space_witness :
    endsWithSpace (on_transcription_ready false (fun _ => none) "ok") = true :=
  sentence_text_ends_with_space false (fun _ => none) "ok" (by decide)

end Dicta
